import Mathlib

/-!
Verification development for the CVPR abstract-scraping pipeline
(`cvpr_abstract_scraper_async.py`).

The Python source is shallowly embedded: pure extraction logic becomes
Lean functions on an abstract page view, the per-year semaphore becomes a
small transition system, the orchestration of `scrape_all_years` becomes
explicit folds producing checkpoint traces, and the cache-key derivation
(`paper_{hash(url)}`) is modelled with CPython 3.11's seeded SipHash-1-3
string hash over `Nat` with explicit `% 2^64`.
-/

namespace CvprScrape

/-! ### Python string primitives -/

/-- Whitespace characters stripped by Python's `str.strip()` and matched by
the regex class used in the source (ASCII range; the inputs handled by the
scraper are ASCII HTML text). -/
def pyIsSpace (c : Char) : Bool :=
  c = ' ' || c = '\t' || c = '\n' || c = '\r' || c = '\x0b' || c = '\x0c'

/-- Python `str.strip()`: drop whitespace from both ends. -/
def pyStrip (s : String) : String :=
  ⟨((s.data.dropWhile pyIsSpace).reverse.dropWhile pyIsSpace).reverse⟩

/-- Whether `needle` is a leading segment of `hay`. -/
def startsWithList : List Char → List Char → Bool
  | _, [] => true
  | [], _ :: _ => false
  | c :: cs, d :: ds => c = d && startsWithList cs ds

/-- Whether `needle` occurs contiguously inside `hay`. -/
def containsList : List Char → List Char → Bool
  | [], needle => needle.isEmpty
  | c :: rest, needle => startsWithList (c :: rest) needle || containsList rest needle

/-- Python's substring test `sub in s`. -/
def containsSub (s sub : String) : Bool :=
  containsList s.data sub.data

/-- Whether `suf` is a trailing segment of `s` (Python `str.endswith`). -/
def endsWithList (s suf : List Char) : Bool :=
  startsWithList s.reverse suf.reverse

/-- Python `str.lower()` restricted to ASCII case mapping (the scraper's
inputs are ASCII HTML text). -/
def lowerList (s : String) : List Char :=
  s.data.map Char.toLower

/-- Python `str.split(',')`. -/
def splitOnComma : List Char → List (List Char)
  | [] => [[]]
  | c :: rest =>
    if c = ',' then [] :: splitOnComma rest
    else
      match splitOnComma rest with
      | [] => [[c]]
      | g :: gs => (c :: g) :: gs

/-! ### Title extraction (`scrape_paper`, lines 203-212) -/

/-- Attempt to match the regex `CVPR\s+\d{4}.*` at the head of the character
list; on success return the remainder of the input after the match (the
`.*` consumes up to, but not including, the next newline). -/
def matchCVPRAt (cs : List Char) : Option (List Char) :=
  match cs with
  | 'C' :: 'V' :: 'P' :: 'R' :: rest =>
    if (rest.takeWhile pyIsSpace).isEmpty then none
    else
      match rest.dropWhile pyIsSpace with
      | a :: b :: c :: d :: rest3 =>
        if a.isDigit && b.isDigit && c.isDigit && d.isDigit then
          some (rest3.dropWhile (fun ch => ch ≠ '\n'))
        else none
      | _ => none
  | _ => none

/-- Fueled left-to-right scan implementing
`re.sub(r'CVPR\s+\d{4}.*', '', title)`: every non-overlapping match is
replaced by the empty string.  The fuel (instantiated with the input
length) only serves termination; each step either consumes one character
or a whole match. -/
def subCVPRAux : Nat → List Char → List Char
  | 0, cs => cs
  | _ + 1, [] => []
  | fuel + 1, c :: cs =>
    match matchCVPRAt (c :: cs) with
    | some rest => subCVPRAux fuel rest
    | none => c :: subCVPRAux fuel cs

/-- `re.sub(r'CVPR\s+\d{4}.*', '', title).strip()` composed with the
preceding `get_text().strip()` of the matched element. -/
def processTitle (t : String) : String :=
  let stripped := pyStrip t
  pyStrip ⟨subCVPRAux stripped.data.length stripped.data⟩

/-- Loop over the title selector results (`title`, `h1`, `.paper-title`,
`#papertitle`): each match is processed and the loop breaks at the first
non-empty processed title. -/
def titleLoop : List (Option String) → String → String
  | [], acc => acc
  | none :: rs, acc => titleLoop rs acc
  | some t :: rs, _ =>
    let title := processTitle t
    if title ≠ "" then title else titleLoop rs title

/-! ### Author extraction (`scrape_paper`, lines 214-228) -/

/-- First selector that matched (the author loop breaks unconditionally on
the first match). -/
def firstMatch : List (Option String) → Option String
  | [] => none
  | some t :: _ => some t
  | none :: rs => firstMatch rs

/-- Fallback scan over emphasis/bold elements: take the first stripped text
containing a comma and splitting into more than one comma-separated part. -/
def authorsFallback : List String → String
  | [] => ""
  | e :: es =>
    let text := pyStrip e
    if containsSub text "," && (splitOnComma text.data).length > 1 then text
    else authorsFallback es

/-! ### Abstract extraction (`scrape_paper`, lines 230-253) -/

/-- The substitution `re.sub(r'^Abstract\s*:?\s*', '', text, flags=IGNORECASE)`
followed by `.strip()`.  The anchored pattern removes, at the start only, a
case-insensitive `Abstract` label, optional whitespace, an optional colon
and optional whitespace. -/
def stripAbstractLabel (s : String) : String :=
  let cs := s.data
  let lowered := cs.take 8 |>.map Char.toLower
  let body :=
    if lowered = "abstract".data then
      let r1 := (cs.drop 8).dropWhile pyIsSpace
      let r2 := match r1 with
        | ':' :: rest => rest
        | _ => r1
      r2.dropWhile pyIsSpace
    else cs
  pyStrip ⟨body⟩

/-- Loop over the seven abstract selector results: each match is stripped of
its label; the loop breaks once the stripped text exceeds 50 characters,
otherwise the (possibly short, possibly empty) stripped text stays in the
accumulator and later matches overwrite it. -/
def abstractLoop : List (Option String) → String → String
  | [], acc => acc
  | none :: rs, acc => abstractLoop rs acc
  | some t :: rs, _ =>
    let abstract := stripAbstractLabel (pyStrip t)
    if abstract.length > 50 then abstract else abstractLoop rs abstract

/-- Paragraph fallback: the first stripped paragraph longer than 200
characters whose first 50 lower-cased characters do not contain
`"abstract"`. -/
def paragraphFallback : List String → String
  | [] => ""
  | p :: ps =>
    let text := pyStrip p
    if text.length > 200 && !containsList ((lowerList text).take 50) "abstract".data then text
    else paragraphFallback ps

/-! ### Resource link classification (`scrape_paper`, lines 255-266) -/

/-- One hyperlink of the document page: target and visible text. -/
structure Link where
  href : String
  text : String
  deriving DecidableEq, Repr

/-- PDF rule, tested first: `'pdf' in text or href.endswith('.pdf')` where
`text` is the lower-cased visible text. -/
def isPdfLink (l : Link) : Bool :=
  containsList (lowerList l.text) "pdf".data || endsWithList l.href.data ".pdf".data

/-- Supplementary rule, tested only when the PDF rule fails:
`'supp' in text or 'supplementary' in text`. -/
def isSuppLink (l : Link) : Bool :=
  containsList (lowerList l.text) "supp".data ||
    containsList (lowerList l.text) "supplementary".data

/-- Loop over all hyperlinks, overwriting the PDF slot on each PDF match and
the supplementary slot on each supplementary-only match.  `join` abstracts
`urljoin(url, href)` with the page URL as fixed base. -/
def linksLoop (join : String → String) : List Link → String × String → String × String
  | [], acc => acc
  | l :: ls, (pdf, supp) =>
    if isPdfLink l then linksLoop join ls (join l.href, supp)
    else if isSuppLink l then linksLoop join ls (pdf, join l.href)
    else linksLoop join ls (pdf, supp)

/-! ### The record type and the full extraction (`scrape_paper`) -/

/-- The `Paper` dataclass of the source. -/
structure Paper where
  title : String
  authors : String
  abstract : String
  year : Int
  url : String
  pdf_url : Option String
  supplementary_url : Option String
  deriving DecidableEq, Repr

/-- Abstract view of one fetched document page: for each selector of the
source's fixed selector lists, the stripped-ready text of the first DOM
node matching it (or `none`), plus the document-order lists of paragraph
texts and hyperlinks that the fallback scans visit. -/
structure Page where
  titleResults : List (Option String)
  authorResults : List (Option String)
  emphTexts : List String
  abstractResults : List (Option String)
  paragraphs : List String
  links : List Link
  deriving Repr

/-- Title extraction entry point. -/
def extractTitle (page : Page) : String :=
  titleLoop page.titleResults ""

/-- Author extraction: selector loop (unconditional break on first match)
then the emphasis-element fallback when the result is empty. -/
def extractAuthors (page : Page) : String :=
  let authors := match firstMatch page.authorResults with
    | some t => pyStrip t
    | none => ""
  if authors = "" then authorsFallback page.emphTexts else authors

/-- Abstract extraction: selector loop then, only if the retained text is
empty, the paragraph fallback. -/
def extractAbstract (page : Page) : String :=
  let abstract := abstractLoop page.abstractResults ""
  if abstract = "" then paragraphFallback page.paragraphs else abstract

/-- The pure core of `scrape_paper` on a fetched page: extract all fields
and emit a `Paper` only when both title and abstract are non-empty
(`if title and abstract:`). -/
def scrapePaper (join : String → String) (page : Page) (url : String) (year : Int) :
    Option Paper :=
  if extractTitle page ≠ "" ∧ extractAbstract page ≠ "" then
    some
      { title := extractTitle page
        authors := extractAuthors page
        abstract := extractAbstract page
        year := year
        url := url
        pdf_url :=
          if (linksLoop join page.links ("", "")).1 ≠ ""
          then some (linksLoop join page.links ("", "")).1 else none
        supplementary_url :=
          if (linksLoop join page.links ("", "")).2 ≠ ""
          then some (linksLoop join page.links ("", "")).2 else none }
  else none

/-! ### Orchestration across years (`scrape_all_years`, lines 330-358)

A year plays the role of a partition.  `scrape_year` is abstracted by a
function from the year to either its paper list or the exception it
raised; the checkpoint trail records, for every intermediate save, the
partial-results filename together with the full accumulated list written
to it. -/

/-- Filename of the intermediate checkpoint for one year,
`f"cvpr_abstracts_partial_{year}.json"`. -/
def checkpointName (year : Int) : String :=
  "cvpr_abstracts_partial_" ++ toString year ++ ".json"

/-- The merge loop of the parallel branch:
`for year, result in zip(years, results)` skips results that are
exceptions and otherwise extends the accumulator and saves a checkpoint
holding the whole accumulator. -/
def mergeParallelAux :
    List (Int × Except String (List Paper)) → List Paper →
    List (String × List Paper) → List Paper × List (String × List Paper)
  | [], acc, trace => (acc, trace)
  | (year, result) :: rest, acc, trace =>
    match result with
    | .error _ => mergeParallelAux rest acc trace
    | .ok papers =>
        mergeParallelAux rest (acc ++ papers) (trace ++ [(checkpointName year, acc ++ papers)])

/-- Parallel branch of `scrape_all_years`: the year tasks are gathered with
`return_exceptions=True`; `asyncio.gather` hands the results back aligned
with the argument order (the `years` list), whatever temporal order the
tasks completed in, so the merge loop never observes `completionOrder`. -/
def scrapeAllYearsParallel (_completionOrder : List Int) (years : List Int)
    (scrapeYear : Int → Except String (List Paper)) :
    List Paper × List (String × List Paper) :=
  mergeParallelAux (years.map fun y => (y, scrapeYear y)) [] []

/-- Sequential branch of `scrape_all_years`: years are processed one at a
time, each followed by a checkpoint write; an exception raised by
`scrape_year` is not caught and propagates, aborting the loop.  Returns
the checkpoint trail written so far together with the outcome. -/
def scrapeAllYearsSeq :
    List Int → (Int → Except String (List Paper)) → List Paper →
    List (String × List Paper) → List (String × List Paper) × Except String (List Paper)
  | [], _, acc, trace => (trace, .ok acc)
  | y :: ys, scrapeYear, acc, trace =>
    match scrapeYear y with
    | .error e => (trace, .error e)
    | .ok papers =>
        scrapeAllYearsSeq ys scrapeYear (acc ++ papers)
          (trace ++ [(checkpointName y, acc ++ papers)])

/-! ### The admission gate (`scrape_year`, lines 304-312)

Each call of `scrape_year` creates its own
`asyncio.Semaphore(self.max_concurrent)`, and every fetch task of that
year acquires only that semaphore.  In parallel mode all years' tasks run
concurrently, so the system state is the per-year count of in-flight
fetches, and a step either admits one more fetch for some year (allowed
whenever that year's own count is below the limit) or retires one. -/

/-- One scheduler step over the per-year in-flight counters. -/
inductive GateStep (limit : Nat) (years : List Int) : (Int → Nat) → (Int → Nat) → Prop
  | acquire (s : Int → Nat) (y : Int) (hy : y ∈ years) (h : s y < limit) :
      GateStep limit years s (fun y' => if y' = y then s y + 1 else s y')
  | release (s : Int → Nat) (y : Int) (hy : y ∈ years) (h : 0 < s y) :
      GateStep limit years s (fun y' => if y' = y then s y - 1 else s y')

/-- States reachable from the all-idle state. -/
inductive GateReach (limit : Nat) (years : List Int) : (Int → Nat) → Prop
  | init : GateReach limit years (fun _ => 0)
  | step {s s' : Int → Nat} :
      GateReach limit years s → GateStep limit years s s' → GateReach limit years s'

/-- Total number of simultaneously in-flight fetches across all years. -/
def totalInflight (years : List Int) (s : Int → Nat) : Nat :=
  (years.map s).sum

/-! ### The response cache (`get_cached_or_fetch`, lines 96-133)

The on-disk cache file for a key holds exactly the UTF-8 text written to
it.  `put` is `aiofiles.open(cache_file, 'w')` followed by one write: the
open truncates the final path in place (there is no temporary file), and
the content lands with a later step.  `get` opens the file in text mode
with `newline=None`, so universal-newline translation is applied to what
is read back. -/

/-- An atomic file-system step of the cache writer. -/
inductive PutStep where
  | truncate
  | writeAll (content : String)
  deriving DecidableEq, Repr

/-- The step sequence of the source's cache write for one key: open the
final path in `'w'` mode (truncating it) and then write the content. -/
def putSteps (content : String) : List PutStep :=
  [PutStep.truncate, PutStep.writeAll content]

/-- Effect of one writer step on the key's file (`none` = file absent);
both steps replace whatever was there. -/
def applyStep (_file : Option String) : PutStep → Option String
  | .truncate => some ""
  | .writeAll c => some c

/-- Run a sequence of writer steps. -/
def runSteps (file : Option String) (steps : List PutStep) : Option String :=
  steps.foldl applyStep file

/-- Universal-newline translation performed by a text-mode read with
`newline=None`: `"\r\n"` and a lone `"\r"` both become `"\n"`. -/
def univNewlines : List Char → List Char
  | [] => []
  | [c] => [if c = '\r' then '\n' else c]
  | c :: d :: rest =>
    if c = '\r' then
      if d = '\n' then '\n' :: univNewlines rest
      else '\n' :: univNewlines (d :: rest)
    else c :: univNewlines (d :: rest)

/-- String version of the universal-newline translation. -/
def univNewlinesStr (s : String) : String :=
  ⟨univNewlines s.data⟩

/-- Cache write: the file ends up holding exactly the content string. -/
def cachePut (content : String) : Option String :=
  some content

/-- Cache read in text mode: universal-newline translation applies. -/
def cacheGetText (file : Option String) : Option String :=
  file.map univNewlinesStr

/-- Lookup of a key in an association-list view of the cache directory. -/
def lookupCache (cache : List (String × String)) (key : String) : Option String :=
  (cache.find? fun kv => kv.1 = key).map (·.2)

/-- Control flow of `get_cached_or_fetch` with the network abstracted by
`fetchResult`: on a cache hit (with caching enabled) the cached content is
returned and no fetch happens; otherwise the fetch result is returned and,
on success with caching enabled, stored.  The returned triple is
(content, whether a fetch was attempted, cache afterwards).  Cache I/O
errors, which the source merely logs, are not modelled. -/
def getCachedOrFetch (useCache : Bool) (cache : List (String × String)) (key : String)
    (fetchResult : Option String) :
    Option String × Bool × List (String × String) :=
  match (if useCache then lookupCache cache key else none) with
  | some content => (some content, false, cache)
  | none =>
    match fetchResult with
    | some content => (some content, true, if useCache then cache ++ [(key, content)] else cache)
    | none => (none, true, cache)

/-! ### Document cache keys (`scrape_paper`, line 196)

The key for a document page is `f"paper_{hash(url)}"`, where `hash` is
CPython's built-in string hash: SipHash-1-3 over the string's bytes,
keyed by the per-process hash secret.  With `PYTHONHASHSEED=0` the secret
is all zeroes; with a non-zero seed `n` the secret bytes come from the
LCG expansion `x := (x * 214013 + 2531011) mod 2^32` of `n`.  All words
are 64-bit, modelled as `Nat` with explicit `% 2^64`. -/

/-- Rotate a 64-bit word left by `b` bits. -/
def rotl64 (x b : Nat) : Nat :=
  ((x <<< b) ||| (x >>> (64 - b))) % 2 ^ 64

/-- The four 64-bit lanes of the SipHash state. -/
structure SipState where
  v0 : Nat
  v1 : Nat
  v2 : Nat
  v3 : Nat
  deriving Repr

/-- One SipHash round (CPython's `SINGLE_ROUND`). -/
def sipRound (s : SipState) : SipState :=
  let v0 := (s.v0 + s.v1) % 2 ^ 64
  let v2 := (s.v2 + s.v3) % 2 ^ 64
  let v1 := rotl64 s.v1 13 ^^^ v0
  let v3 := rotl64 s.v3 16 ^^^ v2
  let v0' := rotl64 v0 32
  let v2' := (v2 + v1) % 2 ^ 64
  let v0'' := (v0' + v3) % 2 ^ 64
  let v1' := rotl64 v1 17 ^^^ v2'
  let v3' := rotl64 v3 21 ^^^ v0''
  let v2'' := rotl64 v2' 32
  ⟨v0'', v1', v2'', v3'⟩

/-- Little-endian value of a byte list. -/
def le64 (bytes : List Nat) : Nat :=
  bytes.foldr (fun b acc => b + 256 * acc) 0

/-- Consume full 8-byte blocks of the message; return the updated state
and the remaining (fewer than 8) bytes. -/
def sipBlocks : SipState → List Nat → SipState × List Nat
  | st, b0 :: b1 :: b2 :: b3 :: b4 :: b5 :: b6 :: b7 :: rest =>
    let mi := le64 [b0, b1, b2, b3, b4, b5, b6, b7]
    let st1 := sipRound { st with v3 := st.v3 ^^^ mi }
    sipBlocks { st1 with v0 := st1.v0 ^^^ mi } rest
  | st, rest => (st, rest)

/-- SipHash-1-3 of a byte string under key `(k0, k1)` (CPython's
`pysiphash13`). -/
def siphash13 (k0 k1 : Nat) (data : List Nat) : Nat :=
  let lenByte := (data.length % 256) * 2 ^ 56
  let st : SipState :=
    ⟨k0 ^^^ 0x736f6d6570736575, k1 ^^^ 0x646f72616e646f6d,
     k0 ^^^ 0x6c7967656e657261, k1 ^^^ 0x7465646279746573⟩
  let (st1, rest) := sipBlocks st data
  let b := lenByte ||| le64 rest
  let st2 := sipRound { st1 with v3 := st1.v3 ^^^ b }
  let st3 := { st2 with v0 := st2.v0 ^^^ b }
  let st4 := { st3 with v2 := st3.v2 ^^^ 0xff }
  let st5 := sipRound (sipRound (sipRound st4))
  (st5.v0 ^^^ st5.v1) ^^^ (st5.v2 ^^^ st5.v3)

/-- CPython's `lcg_urandom` expansion of `PYTHONHASHSEED` into secret
bytes. -/
def lcgBytes : Nat → Nat → List Nat
  | _, 0 => []
  | x, n + 1 =>
    let x' := (x * 214013 + 2531011) % 2 ^ 32
    ((x' >>> 16) % 256) :: lcgBytes x' n

/-- The SipHash key pair for a given `PYTHONHASHSEED` value. -/
def hashSecretKeys (seed : Nat) : Nat × Nat :=
  if seed = 0 then (0, 0)
  else
    let buf := lcgBytes (seed % 2 ^ 32) 24
    (le64 (buf.take 8), le64 ((buf.drop 8).take 8))

/-- CPython 3.11's `hash` of an ASCII string in the process whose hash
seed is `seed`: SipHash-1-3 of the one-byte-kind representation, folded
to a signed 64-bit value, with `-1` mapped to `-2` and the empty string
hashing to `0`. -/
def pyStrHash (seed : Nat) (s : String) : Int :=
  if s.length = 0 then 0
  else
    let ks := hashSecretKeys seed
    let x := siphash13 ks.1 ks.2 (s.data.map Char.toNat)
    let signed : Int := if x < 2 ^ 63 then (x : Int) else (x : Int) - 2 ^ 64
    if signed = -1 then -2 else signed

/-- The document-page cache key of `scrape_paper`: `f"paper_{hash(url)}"`. -/
def paperCacheKey (seed : Nat) (url : String) : String :=
  "paper_" ++ toString (pyStrHash seed url)

/-! ## Theorems -/

/-! ### C5: acceptance invariant of the extractor -/

/-- C5: every Record produced by the extraction has a non-empty title and a
non-empty abstract; a page on which either field remains empty after all
strategies is rejected (`scrape_paper` returns no record), never emitted
with empty required fields. -/
theorem record_fields_nonempty (join : String → String) (page : Page) (url : String)
    (year : Int) (p : Paper) (h : scrapePaper join page url year = some p) :
    p.title ≠ "" ∧ p.abstract ≠ "" := by
  unfold scrapePaper at h
  split at h
  · rename_i hc
    injection h with h'
    subst h'
    exact hc
  · exact absurd h (by simp)

/-- Concrete page accepted by the extractor, used to instantiate
`record_fields_nonempty`. -/
def c5Page : Page :=
  { titleResults := [some "A Sample Title", none, none, none]
    authorResults := [some "Alice Author, Bob Builder", none, none, none]
    emphTexts := []
    abstractResults :=
      [some "Abstract: This work develops a method that improves the state of the art by a wide margin.",
       none, none, none, none, none, none]
    paragraphs := []
    links := [] }

/-- The record the extractor produces on `c5Page`. -/
def c5Paper : Paper :=
  { title := "A Sample Title"
    authors := "Alice Author, Bob Builder"
    abstract := "This work develops a method that improves the state of the art by a wide margin."
    year := 2020
    url := "u"
    pdf_url := none
    supplementary_url := none }

set_option maxRecDepth 8192 in
/-- Witness for C5 at a concrete accepted page. -/
theorem record_fields_nonempty_witness : c5Paper.title ≠ "" ∧ c5Paper.abstract ≠ "" :=
  record_fields_nonempty id c5Page "u" 2020 c5Paper (by decide)

/-! ### C2: short selector matches and the 50-character threshold -/

/-- Page whose only abstract-selector match strips to the 6-character text
`"Short."`, while a qualifying 201-character paragraph is available to the
fallback scan. -/
def c2Page : Page :=
  { titleResults := [some "Short Abstract Paper", none, none, none]
    authorResults := [none, none, none, none]
    emphTexts := []
    abstractResults := [some "Abstract: Short.", none, none, none, none, none, none]
    paragraphs := [String.mk (List.replicate 201 'p')]
    links := [] }

/-- The record the code produces on `c2Page`: the 6-character selector
match is retained as the abstract. -/
def c2Paper : Paper :=
  { title := "Short Abstract Paper"
    authors := ""
    abstract := "Short."
    year := 2020
    url := "u"
    pdf_url := none
    supplementary_url := none }

set_option maxRecDepth 8192 in
/-- C2 counterexample: a selector match of 50 or fewer characters IS
retained as the Record's abstract.  On `c2Page` the single selector match
strips to `"Short."` (6 characters ≤ 50); the loop moves on but keeps the
short text in its accumulator, so the paragraph fallback — which would
have returned the qualifying 201-character paragraph — is never consulted,
and the emitted record carries the short abstract. -/
theorem short_selector_abstract_retained :
    scrapePaper id c2Page "u" 2020 = some c2Paper ∧
    abstractLoop c2Page.abstractResults "" = "Short." ∧
    ¬ 50 < (stripAbstractLabel (pyStrip "Abstract: Short.")).length ∧
    paragraphFallback c2Page.paragraphs ≠ "" ∧
    paragraphFallback c2Page.paragraphs ≠ c2Paper.abstract := by
  refine ⟨by decide, by decide, by decide, by decide, by decide⟩

/-- The stripped texts of the abstract-selector matches, in selector
order. -/
def processedMatches (rs : List (Option String)) : List String :=
  (rs.filterMap id).map fun t => stripAbstractLabel (pyStrip t)

/-- Characterization of the abstract selector loop: the result is the
first stripped match exceeding 50 characters if any, else the stripped
text of the last match, else the accumulator. -/
theorem abstractLoop_eq (rs : List (Option String)) (acc : String) :
    abstractLoop rs acc =
      (match (processedMatches rs).find? (fun a => 50 < a.length) with
       | some a => a
       | none => (processedMatches rs).getLast?.getD acc) := by
  induction rs generalizing acc with
  | nil => rfl
  | cons r rs ih =>
    cases r with
    | none =>
      have hp : processedMatches (none :: rs) = processedMatches rs := by
        simp [processedMatches]
      rw [hp]
      exact ih acc
    | some t =>
      have hp : processedMatches (some t :: rs) =
          stripAbstractLabel (pyStrip t) :: processedMatches rs := by
        simp [processedMatches]
      simp only [abstractLoop]
      rw [hp, List.find?_cons]
      by_cases h : 50 < (stripAbstractLabel (pyStrip t)).length
      · rw [decide_eq_true h]
        simp [h]
      · rw [decide_eq_false h]
        simp only [if_neg h]
        rw [ih]
        rcases hf : (processedMatches rs).find? (fun a => 50 < a.length) with _ | a
        · simp [hf, List.getLast?_cons]
        · simp [hf]

/-- C2 amended: the extractor's abstract is the first selector match whose
stripped text exceeds 50 characters if one exists; otherwise the stripped
text of the LAST selector match is retained even when it has 50 or fewer
characters, and the paragraph fallback runs only when that retained text
is empty (in particular when there was no match at all). -/
theorem abstract_selector_chain_spec (page : Page) :
    extractAbstract page =
      (match (processedMatches page.abstractResults).find? (fun a => 50 < a.length) with
       | some a => a
       | none =>
          match (processedMatches page.abstractResults).getLast? with
          | some a => if a = "" then paragraphFallback page.paragraphs else a
          | none => paragraphFallback page.paragraphs) := by
  unfold extractAbstract
  rw [abstractLoop_eq]
  rcases hf : (processedMatches page.abstractResults).find? (fun a => 50 < a.length) with _ | a
  · simp only [hf]
    rcases hl : (processedMatches page.abstractResults).getLast? with _ | a
    · simp [hl]
    · simp only [hl, Option.getD_some]
  · have hp := List.find?_some hf
    have ha : a ≠ "" := by
      intro he
      subst he
      simp at hp
    simp [hf, ha]

/-! ### C10: resource-link classification -/

/-- A link sets the supplementary slot exactly when the PDF rule (tested
first) fails and the supplementary rule holds. -/
def isSuppOnly (l : Link) : Bool :=
  !isPdfLink l && isSuppLink l

/-- Processing a concatenation processes the second part starting from the
first part's outcome. -/
theorem linksLoop_append (join : String → String) (xs ys : List Link) (acc : String × String) :
    linksLoop join (xs ++ ys) acc = linksLoop join ys (linksLoop join xs acc) := by
  induction xs generalizing acc with
  | nil => rfl
  | cons l ls ih =>
    obtain ⟨p, s⟩ := acc
    simp only [List.cons_append, linksLoop]
    by_cases h1 : isPdfLink l <;> by_cases h2 : isSuppLink l <;> simp [h1, h2, ih]

/-- C10: the PDF rule is tested before the supplementary rule, so a link
matching both rules only ever sets the PDF slot; and each slot holds the
join of the LAST link in document order satisfying its rule (for the
supplementary slot: satisfying the supplementary rule but not the PDF
rule), with the empty string when no link qualifies. -/
theorem links_last_match_pdf_priority (join : String → String) (links : List Link) :
    linksLoop join links ("", "") =
      (((links.reverse.find? isPdfLink).map fun l => join l.href).getD "",
       ((links.reverse.find? isSuppOnly).map fun l => join l.href).getD "") := by
  suffices h : ∀ (pdf supp : String),
      linksLoop join links (pdf, supp) =
        (((links.reverse.find? isPdfLink).map fun l => join l.href).getD pdf,
         ((links.reverse.find? isSuppOnly).map fun l => join l.href).getD supp) from
    h "" ""
  induction links using List.reverseRecOn with
  | nil => intro pdf supp; rfl
  | append_singleton xs x ih =>
    intro pdf supp
    rw [linksLoop_append, ih pdf supp, List.reverse_append]
    simp only [List.reverse_singleton, List.singleton_append, List.find?_cons]
    by_cases h1 : isPdfLink x
    · have h2 : isSuppOnly x = false := by simp [isSuppOnly, h1]
      rw [h1, h2]
      simp [linksLoop, h1]
    · by_cases h2 : isSuppLink x
      · have h3 : isSuppOnly x = true := by simp [isSuppOnly, h1, h2]
        rw [Bool.not_eq_true] at h1
        rw [h1, h3]
        simp [linksLoop, h1, h2]
      · have h3 : isSuppOnly x = false := by simp [isSuppOnly, h1, h2]
        rw [Bool.not_eq_true] at h1
        rw [Bool.not_eq_true] at h2
        rw [h1, h3]
        simp [linksLoop, h1, h2]

/-! ### C4, C8, C9: orchestration of partitions -/

/-- Whether a partition's outcome is a result rather than an exception. -/
def isOkResult : Except String (List Paper) → Bool
  | .ok _ => true
  | .error _ => false

/-- One-paper result list for a year, used in concrete scenarios. -/
def yearPapers (y : Int) : List Paper :=
  [{ title := "T", authors := "A", abstract := "Long enough abstract text.", year := y,
     url := "u", pdf_url := none, supplementary_url := none }]

/-- C4 counterexample: with years 2015 and 2016 both succeeding and 2016
completing BEFORE 2015, the merge loop still writes the checkpoints in
partition-key order — first the 2015 checkpoint (holding only 2015's
records, although 2016 finished earlier), then the 2016 checkpoint — and
only after `asyncio.gather` has returned, i.e. after all partitions
completed; the write order does not equal the completion order. -/
theorem parallel_checkpoints_key_order_not_completion :
    (scrapeAllYearsParallel [2016, 2015] [2015, 2016] fun y => Except.ok (yearPapers y)).2 =
      [(checkpointName 2015, yearPapers 2015),
       (checkpointName 2016, yearPapers 2015 ++ yearPapers 2016)] ∧
    [checkpointName 2015, checkpointName 2016] ≠ [checkpointName 2016, checkpointName 2015] := by
  exact ⟨by decide, by decide⟩

/-- Checkpoint names written by the parallel merge loop: the successful
years in key order, independent of the accumulator. -/
theorem mergeParallelAux_trace (pairs : List (Int × Except String (List Paper)))
    (acc : List Paper) (trace : List (String × List Paper)) :
    (mergeParallelAux pairs acc trace).2.map Prod.fst =
      trace.map Prod.fst ++ (pairs.filter fun pr => isOkResult pr.2).map
        fun pr => checkpointName pr.1 := by
  induction pairs generalizing acc trace with
  | nil => simp [mergeParallelAux]
  | cons pr rest ih =>
    obtain ⟨year, result⟩ := pr
    cases result with
    | error e => simp [mergeParallelAux, ih, isOkResult, List.filter_cons]
    | ok papers => simp [mergeParallelAux, ih, isOkResult, List.filter_cons]

/-- Sequential trace when every partition succeeds: one checkpoint per
year, in order. -/
theorem seq_trace_all_ok (years : List Int) (scrapeYear : Int → Except String (List Paper))
    (acc : List Paper) (trace : List (String × List Paper))
    (h : ∀ y ∈ years, isOkResult (scrapeYear y)) :
    (scrapeAllYearsSeq years scrapeYear acc trace).1.map Prod.fst =
      trace.map Prod.fst ++ years.map checkpointName := by
  induction years generalizing acc trace with
  | nil => simp [scrapeAllYearsSeq]
  | cons y ys ih =>
    have hy := h y (by simp)
    cases hf : scrapeYear y with
    | error e => rw [hf] at hy; simp [isOkResult] at hy
    | ok papers =>
      simp only [scrapeAllYearsSeq, hf]
      rw [ih (acc ++ papers) _ fun y' hy' => h y' (by simp [hy'])]
      simp

/-- C4 amended: in parallel mode the merge loop runs only after
`asyncio.gather` returns all partitions' outcomes, and it is entirely
independent of the order in which partitions completed; checkpoint writes
happen in partition-key order, one per successful partition (failed
partitions are skipped).  In sequential mode each successful partition is
followed by its checkpoint write. -/
theorem checkpoint_order_characterization (years : List Int)
    (scrapeYear : Int → Except String (List Paper)) (comp comp' : List Int) :
    scrapeAllYearsParallel comp years scrapeYear =
      scrapeAllYearsParallel comp' years scrapeYear ∧
    (scrapeAllYearsParallel comp years scrapeYear).2.map Prod.fst =
      (years.filter fun y => isOkResult (scrapeYear y)).map checkpointName ∧
    ((∀ y ∈ years, isOkResult (scrapeYear y)) →
      (scrapeAllYearsSeq years scrapeYear [] []).1.map Prod.fst =
        years.map checkpointName) := by
  refine ⟨rfl, ?_, fun h => by simpa using seq_trace_all_ok years scrapeYear [] [] h⟩
  unfold scrapeAllYearsParallel
  rw [mergeParallelAux_trace]
  simp [List.filter_map, List.map_map, Function.comp_def]

/-- Witness for the sequential conjunct of the C4 amended theorem. -/
theorem checkpoint_order_characterization_witness :
    (scrapeAllYearsSeq [2015] (fun _ => Except.ok []) [] []).1.map Prod.fst =
      [2015].map checkpointName :=
  (checkpoint_order_characterization [2015] (fun _ => Except.ok []) [] [2016]).2.2 (by decide)

/-- C8: in parallel mode an exception in one partition (here 2016, forced
to throw) contributes zero records, and the run's output is exactly the
records of the sibling partitions 2015 and 2017, in key order. -/
theorem parallel_partition_isolation (comp : List Int) (x z : List Paper) (e : String) :
    (scrapeAllYearsParallel comp [2015, 2016, 2017] fun y =>
        if y = 2015 then Except.ok x else if y = 2016 then Except.error e
        else Except.ok z).1 = x ++ z := by
  show (mergeParallelAux [(2015, Except.ok x), (2016, Except.error e), (2017, Except.ok z)]
    [] []).1 = x ++ z
  simp [mergeParallelAux]

/-- Trace and outcome of a sequential run whose first failing partition is
`y`: the error propagates and only the years before `y` have
checkpoints. -/
theorem seq_error_aux (ys1 ys2 : List Int) (y : Int)
    (scrapeYear : Int → Except String (List Paper)) (e : String)
    (acc : List Paper) (trace : List (String × List Paper))
    (h1 : ∀ y' ∈ ys1, isOkResult (scrapeYear y')) (h2 : scrapeYear y = .error e) :
    (scrapeAllYearsSeq (ys1 ++ y :: ys2) scrapeYear acc trace).2 = .error e ∧
    (scrapeAllYearsSeq (ys1 ++ y :: ys2) scrapeYear acc trace).1.map Prod.fst =
      trace.map Prod.fst ++ ys1.map checkpointName := by
  induction ys1 generalizing acc trace with
  | nil => simp [scrapeAllYearsSeq, h2]
  | cons a as ih =>
    have ha := h1 a (by simp)
    cases hf : scrapeYear a with
    | error e' => rw [hf] at ha; simp [isOkResult] at ha
    | ok papers =>
      simp only [List.cons_append, scrapeAllYearsSeq, hf, List.append_eq]
      have := ih (acc ++ papers) (trace ++ [(checkpointName a, acc ++ papers)])
        fun y' hy' => h1 y' (by simp [hy'])
      refine ⟨this.1, ?_⟩
      rw [this.2]
      simp

/-- C9: in sequential mode an exception from one partition's run is not
caught: the whole run aborts with that exception, no later partition is
processed and no further checkpoint is written — the checkpoint trail
stops with the partitions before the failing one. -/
theorem sequential_error_aborts_run (ys1 ys2 : List Int) (y : Int)
    (scrapeYear : Int → Except String (List Paper)) (e : String)
    (h1 : ∀ y' ∈ ys1, isOkResult (scrapeYear y')) (h2 : scrapeYear y = .error e) :
    (scrapeAllYearsSeq (ys1 ++ y :: ys2) scrapeYear [] []).2 = .error e ∧
    (scrapeAllYearsSeq (ys1 ++ y :: ys2) scrapeYear [] []).1.map Prod.fst =
      ys1.map checkpointName := by
  have := seq_error_aux ys1 ys2 y scrapeYear e [] [] h1 h2
  simpa using this

/-- The partition outcomes of the concrete C9 scenario: 2016 throws. -/
def c9ScrapeYear : Int → Except String (List Paper) :=
  fun y => if y = 2016 then .error "boom" else .ok (yearPapers y)

/-- Witness for C9: years 2015, 2016, 2017 run sequentially with 2016
throwing; the run aborts with the exception and only 2015's checkpoint
was written. -/
theorem sequential_error_aborts_run_witness :
    (scrapeAllYearsSeq ([2015] ++ 2016 :: [2017]) c9ScrapeYear [] []).2 = .error "boom" ∧
    (scrapeAllYearsSeq ([2015] ++ 2016 :: [2017]) c9ScrapeYear [] []).1.map Prod.fst =
      [2015].map checkpointName :=
  sequential_error_aborts_run [2015] [2017] 2016 c9ScrapeYear "boom" (by decide) rfl

/-! ### C1: the admission gate -/

/-- The all-idle state. -/
def gateS0 : Int → Nat := fun _ => 0

/-- State after one fetch of year 2015 was admitted. -/
def gateS1 : Int → Nat := fun y' => if y' = 2015 then gateS0 2015 + 1 else gateS0 y'

/-- State after, additionally, one fetch of year 2016 was admitted. -/
def gateS2 : Int → Nat := fun y' => if y' = 2016 then gateS1 2016 + 1 else gateS1 y'

/-- C1 counterexample: with admission limit 1 and the two partitions 2015
and 2016 active in parallel mode, the state with one in-flight fetch per
partition is reachable — each partition's own semaphore admits it — so
the total number of simultaneously in-flight fetches is 2 > 1: the gate
is one counter per partition, not a single counter shared across
partitions. -/
theorem admission_gate_not_global :
    GateReach 1 [2015, 2016] gateS2 ∧ 1 < totalInflight [2015, 2016] gateS2 := by
  refine ⟨?_, by decide⟩
  exact GateReach.step
    (GateReach.step GateReach.init (GateStep.acquire gateS0 2015 (by decide) (by decide)))
    (GateStep.acquire gateS1 2016 (by decide) (by decide))

/-- C1 amended: the per-partition semaphore bounds each partition's
in-flight fetches by the limit, so the total across partitions is bounded
only by the limit times the number of active partitions. -/
theorem admission_gate_per_year_bound (limit : Nat) (years : List Int) (s : Int → Nat)
    (h : GateReach limit years s) :
    (∀ y, s y ≤ limit) ∧ totalInflight years s ≤ years.length * limit := by
  have hb : ∀ y, s y ≤ limit := by
    induction h with
    | init => intro y; exact Nat.zero_le _
    | step hr hs ih =>
      intro y
      cases hs with
      | acquire y0 hy0 hlt =>
        simp only []
        by_cases hy : y = y0
        · subst hy
          rw [if_pos rfl]
          omega
        · rw [if_neg hy]
          exact ih y
      | release y0 hy0 hpos =>
        simp only []
        by_cases hy : y = y0
        · subst hy
          rw [if_pos rfl]
          have hi := ih y
          omega
        · rw [if_neg hy]
          exact ih y
  refine ⟨hb, ?_⟩
  unfold totalInflight
  have hlen : ∀ ys : List Int, ((ys.map s).sum ≤ ys.length * limit) := by
    intro ys
    induction ys with
    | nil => simp
    | cons a as ih =>
      have h1 := hb a
      simp only [List.map_cons, List.sum_cons, List.length_cons, Nat.succ_mul]
      omega
  exact hlen years

/-- Witness for the C1 amended bound at the concrete reachable state. -/
theorem admission_gate_per_year_bound_witness : gateS2 2016 ≤ 1 :=
  (admission_gate_per_year_bound 1 [2015, 2016] gateS2
    (GateReach.step
      (GateReach.step GateReach.init (GateStep.acquire gateS0 2015 (by decide) (by decide)))
      (GateStep.acquire gateS1 2016 (by decide) (by decide)))).1 2016

/-! ### C6: atomicity of the cache write -/

/-- C6 counterexample: the cache write consists of two observable steps on
the final path — the truncating open and the write — not a single atomic
publish of a temporary file.  A get interleaved after the first step of
`put "NEW"` over a previous value `"OLD"` observes the empty string,
which is neither the old nor the new content: a torn state is
observable. -/
theorem cache_put_torn_write_observable :
    (putSteps "NEW").length ≠ 1 ∧
    runSteps (some "OLD") ((putSteps "NEW").take 1) = some "" ∧
    cacheGetText (runSteps (some "OLD") ((putSteps "NEW").take 1)) = some "" ∧
    ("" : String) ≠ "OLD" ∧ ("" : String) ≠ "NEW" := by
  exact ⟨by decide, by decide, by decide, by decide, by decide⟩

/-- C6 amended: `put` opens the final cache path directly in write mode
(truncating whatever is there) and then writes the content; after both
steps the file holds exactly the new content, but between them the file
is observably empty, so an interleaved `get` can see a torn state. -/
theorem cache_put_direct_write_spec (old content : String) :
    runSteps (some old) (putSteps content) = some content ∧
    runSteps none (putSteps content) = some content ∧
    runSteps (some old) ((putSteps content).take 1) = some "" := by
  exact ⟨rfl, rfl, rfl⟩

/-! ### C7: cache round trip -/

/-- C7 counterexample: storing content that contains a carriage return and
reading it back returns different content — the text-mode read applies
universal-newline translation, so `"a\rb"` comes back as `"a\nb"`. -/
theorem cache_roundtrip_cr_not_identity :
    cacheGetText (cachePut "a\rb") = some "a\nb" ∧ ("a\nb" : String) ≠ "a\rb" := by
  exact ⟨by decide, by decide⟩

/-- Universal-newline translation is the identity exactly on text without
carriage returns. -/
theorem univNewlines_no_cr (l : List Char) (h : ∀ c ∈ l, c ≠ '\r') :
    univNewlines l = l := by
  induction l with
  | nil => rfl
  | cons c rest ih =>
    have hc : c ≠ '\r' := h c (by simp)
    cases rest with
    | nil => simp [univNewlines, hc]
    | cons d rest2 =>
      simp only [univNewlines, if_neg hc, List.cons.injEq, true_and]
      have : ∀ x ∈ d :: rest2, x ≠ '\r' := fun x hx => h x (by simp at hx ⊢; tauto)
      exact ih this

/-- C7 amended: `put(key, content)` followed by `get(key)` returns the
content with universal-newline translation applied (`"\r\n"` and lone
`"\r"` become `"\n"`); for content containing no carriage return — in
particular for empty content — the round trip returns the content
unchanged. -/
theorem cache_roundtrip_newline_translation (content : String) :
    cacheGetText (cachePut content) = some (univNewlinesStr content) ∧
    ((∀ c ∈ content.data, c ≠ '\r') → univNewlinesStr content = content) := by
  refine ⟨rfl, fun h => ?_⟩
  obtain ⟨data⟩ := content
  show String.mk (univNewlines data) = String.mk data
  rw [univNewlines_no_cr data h]

/-- Witness for C7 amended at carriage-return-free content. -/
theorem cache_roundtrip_newline_translation_witness :
    cacheGetText (cachePut "line one\nline two") = some (univNewlinesStr "line one\nline two") ∧
    univNewlinesStr "line one\nline two" = "line one\nline two" :=
  ⟨(cache_roundtrip_newline_translation "line one\nline two").1,
   (cache_roundtrip_newline_translation "line one\nline two").2 (by decide)⟩

/-! ### C3: stability of the document cache key -/

/-- A representative document-page URL. -/
def cvprURL : String :=
  "https://openaccess.thecvf.com/content/CVPR2021/html/paper.html"

set_option maxRecDepth 8192 in
/-- C3 counterexample: the document cache key `f"paper_{hash(url)}"` is not
a cross-run-stable function of the URL: under hash seed 0 and hash seed 1
(two legitimate process runs) the same URL yields different keys, and a
re-run against a cache populated in the other run misses and performs a
network fetch despite the cache being unmodified and containing that
URL's document. -/
theorem paper_cache_key_seed_dependent :
    paperCacheKey 0 cvprURL ≠ paperCacheKey 1 cvprURL ∧
    (getCachedOrFetch true [(paperCacheKey 0 cvprURL, "cached page")]
      (paperCacheKey 1 cvprURL) (some "fetched page")).2.1 = true := by
  exact ⟨by decide, by decide⟩

/-- C3 amended: within one process run (a fixed hash seed) the key is a
deterministic function of the URL, and a fetch of a URL whose key is
cached returns the cached content with no network call and leaves the
cache unchanged. -/
theorem cache_hit_no_fetch_same_seed (seed : Nat) (url : String)
    (cache : List (String × String)) (c : String) (fetchResult : Option String)
    (h : lookupCache cache (paperCacheKey seed url) = some c) :
    getCachedOrFetch true cache (paperCacheKey seed url) fetchResult = (some c, false, cache) := by
  unfold getCachedOrFetch
  simp [h]

set_option maxRecDepth 8192 in
/-- Witness for C3 amended: same seed as the run that filled the cache, so
the cached content is returned without fetching. -/
theorem cache_hit_no_fetch_same_seed_witness :
    getCachedOrFetch true [(paperCacheKey 0 cvprURL, "cached page")] (paperCacheKey 0 cvprURL)
      (some "fetched page") =
      (some "cached page", false, [(paperCacheKey 0 cvprURL, "cached page")]) :=
  cache_hit_no_fetch_same_seed 0 cvprURL [(paperCacheKey 0 cvprURL, "cached page")]
    "cached page" (some "fetched page") (by decide)

end CvprScrape
